import Mathlib

/-!
Verification development for the `xmlhttprequest-ts` repository
(src/src/XMLHttpRequest.ts).

The single source file defines a class `XMLHttpRequest` with mutable
instance state.  We embed it shallowly: the instance state becomes the
structure `XHR`, each method becomes a pure function `XHR → ...`
(fallible methods return `Except (XhrErr × XHR) XHR`, the error case
carrying the state at the moment the JS exception is thrown), and the
events fired through `dispatchEvent` are recorded in an `events` trace
field.  JS objects used as string maps (`headers`, `headersLowerCase`,
response headers) become insertion-ordered association lists, because
JS `for-in` iteration follows insertion order and property update
preserves position.  JS string falsiness (`'' == false`) is modelled
explicitly wherever the source relies on it.

One heap subtlety of the source is modelled faithfully: `abort()`
executes `this.headers = this.defaultHeaders`, a *reference*
assignment.  From then on the two fields alias one object; writes to
`this.headers` mutate `this.defaultHeaders`.  The structure carries
`headersAliased : Bool` together with both lists, and all reads/writes
of `this.headers` go through `headersOf` / `setHeaders`, which consult
the flag.  Nothing in the source ever re-assigns `this.headers` to a
fresh object, so a single flag captures the reachable heap shapes.
-/

/-- ready-state constant `XMLHttpRequest.UNSENT`. -/
def UNSENT : Nat := 0

/-- ready-state constant `XMLHttpRequest.OPENED`. -/
def OPENED : Nat := 1

/-- ready-state constant `XMLHttpRequest.HEADERS_RECEIVED`. -/
def HEADERS_RECEIVED : Nat := 2

/-- ready-state constant `XMLHttpRequest.LOADING`. -/
def LOADING : Nat := 3

/-- ready-state constant `XMLHttpRequest.DONE`. -/
def DONE : Nat := 4

/-- the `forbiddenRequestHeaders` instance field (a constant list, never
mutated by the source). -/
def forbiddenRequestHeaders : List String :=
  ["accept-charset", "accept-encoding", "access-control-request-headers",
   "access-control-request-method", "connection", "content-length",
   "content-transfer-encoding", "cookie", "cookie2", "date", "expect",
   "host", "keep-alive", "origin", "referer", "te", "trailer",
   "transfer-encoding", "upgrade", "via"]

/-- the `forbiddenRequestMethods` instance field (a constant list, never
mutated by the source). -/
def forbiddenRequestMethods : List String := ["TRACE", "TRACK", "CONNECT"]

/-- the `XMLHttpRequestSettings` value stored by `open`. -/
structure XhrSettings where
  method : String
  url : String
  async : Bool
  user : Option String
  password : Option String
deriving Repr, DecidableEq

/-- a node `IncomingMessage` header value: a string, an array of strings
(repeated headers), or absent/undefined. -/
inductive HeaderValue where
  | str (s : String)
  | arr (l : List String)
  | undef
deriving Repr, DecidableEq

/-- a scripted transport response: status code, (lower-cased, as node
normalises them) response headers in arrival order, and the body chunks
the transport will deliver before its end event. -/
structure RespScript where
  statusCode : Nat
  headers : List (String × HeaderValue)
  chunks : List String
deriving Repr, DecidableEq

/-- the errors the source throws, by site; the distinct
`INVALID_STATE_ERR` message strings are collapsed into one constructor
since no claim distinguishes them. -/
inductive XhrErr where
  | invalidState
  | security
  | protocolNotSupported
  | methodNotSupported
  | redirectLoop
deriving Repr, DecidableEq

/-- lookup in an insertion-ordered association list, modelling JS
property read `obj[key]` (`none` = `undefined`). -/
def assocGet {α : Type} : List (String × α) → String → Option α
  | [], _ => none
  | (k, v) :: rest, key => if k == key then some v else assocGet rest key

/-- update/insert in an insertion-ordered association list, modelling JS
property write `obj[key] = val`: an existing key keeps its position, a
new key is appended. -/
def assocSet {α : Type} : List (String × α) → String → α → List (String × α)
  | [], key, val => [(key, val)]
  | (k, v) :: rest, key, val =>
      if k == key then (k, val) :: rest else (k, v) :: assocSet rest key val

/-!
String primitives.  The JS string operations the source uses
(`toLowerCase`, scheme/host slicing via node's URL parser, UTF-8 byte
length) are modelled on the character list `s.data` with structural
recursion, so that every definition evaluates inside the kernel.
-/

/-- JS `String.prototype.toLowerCase` (ASCII, which is all the source
compares). -/
def jsToLower (s : String) : String := String.mk (s.data.map Char.toLower)

/-- the longest prefix of characters satisfying `p`. -/
def strTakeWhile (p : Char → Bool) (s : String) : String :=
  String.mk (s.data.takeWhile p)

/-- drop the first `n` characters. -/
def strDropChars (s : String) (n : Nat) : String := String.mk (s.data.drop n)

/-- whether `pre` is a prefix of `s`. -/
def strStartsWith (s pre : String) : Bool := pre.data.isPrefixOf s.data

/-- split a character list at every occurrence of `c` (the separator is
dropped; n separators yield n+1 groups). -/
def splitOnChar (c : Char) : List Char → List (List Char)
  | [] => [[]]
  | a :: rest =>
      match splitOnChar c rest with
      | [] => [[]]
      | g :: gs => if a == c then [] :: g :: gs else (a :: g) :: gs

/-- the numeric value of a digit string. -/
def digitsToNat (l : List Char) : Nat :=
  l.foldl (fun n c => n * 10 + (c.toNat - 48)) 0

/-- decimal rendering of a Nat (fuel-based so it evaluates in the
kernel; the fuel `n + 1` always suffices). -/
def natDigitsAux : Nat → Nat → List Char
  | 0, _ => []
  | fuel + 1, n =>
      if n < 10 then [Char.ofNat (48 + n)]
      else natDigitsAux fuel (n / 10) ++ [Char.ofNat (48 + n % 10)]

/-- decimal rendering of a Nat as a string. -/
def natToString (n : Nat) : String := String.mk (natDigitsAux (n + 1) n)

/-- the UTF-8 bytes of one character (what node's `Buffer` stores). -/
def utf8BytesOfChar (c : Char) : List Nat :=
  let n := c.toNat
  if n < 128 then [n]
  else if n < 2048 then [192 + n / 64, 128 + n % 64]
  else if n < 65536 then [224 + n / 4096, 128 + n / 64 % 64, 128 + n % 64]
  else [240 + n / 262144, 128 + n / 4096 % 64, 128 + n / 64 % 64, 128 + n % 64]

/-- the UTF-8 bytes of a string, for `Buffer.from` /
`Buffer.byteLength`. -/
def utf8Bytes (s : String) : List Nat :=
  s.data.foldr (fun c acc => utf8BytesOfChar c ++ acc) []

/-- `Buffer.byteLength(s)`. -/
def utf8Length (s : String) : Nat := (utf8Bytes s).length

/-- the mutable instance state of one `XMLHttpRequest` object, plus the
`events` trace recording each `dispatchEvent` call in order. -/
structure XHR where
  readyState : Nat
  responseText : String
  status : Nat
  statusText : String
  timeout : Nat
  withCredentials : Bool
  disableHeaderCheck : Bool
  errorFlag : Bool
  sendFlag : Bool
  settings : Option XhrSettings
  /-- contents of the object `this.defaultHeaders` points at. -/
  defaultHeaders : List (String × String)
  /-- contents of the separate object `this.headers` pointed at before any
  `abort()` ran (the `{}` from construction). -/
  ownHeaders : List (String × String)
  /-- true once `this.headers = this.defaultHeaders` has executed. -/
  headersAliased : Bool
  headersLowerCase : List (String × String)
  request : Option Unit
  response : Option RespScript
  events : List String
deriving Repr, DecidableEq

/-- the state right after `new XMLHttpRequest()`. -/
def initialXHR : XHR :=
  { readyState := UNSENT
    responseText := ""
    status := 0
    statusText := ""
    timeout := 0
    withCredentials := false
    disableHeaderCheck := false
    errorFlag := false
    sendFlag := false
    settings := none
    defaultHeaders := [("User-Agent", "ts-XMLHttpRequest"), ("Accept", "*/*")]
    ownHeaders := []
    headersAliased := false
    headersLowerCase := []
    request := none
    response := none
    events := [] }

/-- the object `this.headers` currently refers to. -/
def headersOf (x : XHR) : List (String × String) :=
  if x.headersAliased then x.defaultHeaders else x.ownHeaders

/-- write back the object `this.headers` refers to (mutating
`defaultHeaders` when aliased). -/
def setHeaders (x : XHR) (l : List (String × String)) : XHR :=
  if x.headersAliased then { x with defaultHeaders := l } else { x with ownHeaders := l }

/-- write one entry through the `this.headers` reference. -/
def setHeaderEntry (x : XHR) (k v : String) : XHR :=
  setHeaders x (assocSet (headersOf x) k v)

/-- record one `dispatchEvent(e)` call; the handler-invocation mechanics
are modelled separately by `dispatchEventModel`. -/
def dispatchEvt (e : String) (x : XHR) : XHR :=
  { x with events := x.events ++ [e] }

/-- `setState` (source lines 800-816): store the new state when it is
`LOADING` or differs from the current one; conditionally dispatch
`readystatechange`; on `DONE` dispatch `load` (unless the error flag is
set) then `loadend`. -/
def setStateM (state : Nat) (x : XHR) : XHR :=
  if state = LOADING ∨ x.readyState ≠ state then
    let x := { x with readyState := state }
    let x :=
      if (match x.settings with | some s => s.async | none => false)
          || decide (x.readyState < OPENED) || decide (x.readyState = DONE) then
        dispatchEvt "readystatechange" x
      else x
    if x.readyState = DONE then
      let x := if ¬ x.errorFlag then dispatchEvt "load" x else x
      dispatchEvt "loadend" x
    else x
  else x

/-- `abort` (source lines 728-753): release the request handle, alias
`this.headers` to `this.defaultHeaders`, clear status/body, set the
error flag, pass through `DONE` when a send is mid-flight, drop to
`UNSENT`, dispatch `abort`. -/
def abortM (x : XHR) : XHR :=
  let x := { x with request := none }
  let x := { x with headersAliased := true }
  let x := { x with status := 0, responseText := "" }
  let x := { x with errorFlag := true }
  let x :=
    if x.readyState ≠ UNSENT ∧ (x.readyState ≠ OPENED ∨ x.sendFlag = true)
        ∧ x.readyState ≠ DONE then
      setStateM DONE { x with sendFlag := false }
    else x
  let x := { x with readyState := UNSENT }
  dispatchEvt "abort" x

/-- `isAllowedHttpMethod` (source lines 857-859); the JS expression
`(method && indexOf(method) === -1) === true` makes the empty string
(falsy) disallowed as well. -/
def isAllowedHttpMethod (method : String) : Bool :=
  (method ≠ "") && !(forbiddenRequestMethods.contains method)

/-- `isAllowedHttpHeader` (source lines 850-852); the JS expression
`(disableHeaderCheck || (header && indexOf(header.toLowerCase()) === -1)) === true`
makes the empty string (falsy) disallowed unless the check is disabled. -/
def isAllowedHttpHeader (x : XHR) (header : String) : Bool :=
  x.disableHeaderCheck || ((header ≠ "") && !(forbiddenRequestHeaders.contains (jsToLower header)))

/-- `open` (source lines 251-270): unconditionally abort first, clear the
error flag, reject forbidden methods with a SecurityError (the state at
the throw is carried in the error), otherwise store fresh Settings and
move to `OPENED`.  The source coerces a non-boolean `async` argument to
`true`; in the model `async` is already a `Bool`. -/
def openM (method url : String) (async : Bool) (user password : Option String)
    (x : XHR) : Except (XhrErr × XHR) XHR :=
  let x := abortM x
  let x := { x with errorFlag := false }
  if !(isAllowedHttpMethod method) then
    .error (.security, x)
  else
    let st : XhrSettings :=
      { method := method, url := url, async := async, user := user, password := password }
    let x := { x with settings := some st }
    .ok (setStateM OPENED x)

/-- `setRequestHeader` (source lines 289-307).  Check order is exactly
the source's: ready-state first (throws), then the forbidden-header
check (silent return), then the send flag (throws).  The canonical-case
resolution `headersLowerCase[lower] || header` and the value-append
`headers[h] ? headers[h] + ', ' + value : value` use JS falsiness of
the empty string, modelled explicitly.  The mutation block (canonical
casing resolution, shadow-table update, value append) is factored into
`applySetHeader`. -/
def applySetHeader (x : XHR) (header value : String) : XHR :=
  let canonical :=
    match assocGet x.headersLowerCase (jsToLower header) with
    | some c => if c ≠ "" then c else header
    | none => header
  let x := { x with headersLowerCase := assocSet x.headersLowerCase (jsToLower canonical) canonical }
  let hs := headersOf x
  let newVal :=
    match assocGet hs canonical with
    | some old => if old ≠ "" then old ++ ", " ++ value else value
    | none => value
  setHeaders x (assocSet hs canonical newVal)

/-- `setRequestHeader` entry point with its three checks, in source
order. -/
def setRequestHeaderM (header value : String) (x : XHR) : Except (XhrErr × XHR) XHR :=
  if x.readyState ≠ OPENED then
    .error (.invalidState, x)
  else if !(isAllowedHttpHeader x header) then
    .ok x
  else if x.sendFlag then
    .error (.invalidState, x)
  else
    .ok (applySetHeader x header value)

/-- `getRequestHeader` (source lines 375-381): resolve the canonical
casing through `headersLowerCase` (JS truthiness: an empty-string
canonical entry counts as absent), then read `this.headers`. -/
def getRequestHeaderM (x : XHR) (name : String) : Option String :=
  match assocGet x.headersLowerCase (jsToLower name) with
  | some c => if c ≠ "" then assocGet (headersOf x) c else none
  | none => none

/-!
URL decomposition.  The source delegates URL parsing to node's `url`
module (`Url.parse`), an external collaborator per the specification
(the transport boundary).  The helpers below model its fields
(`protocol`, `hostname`, `host`, `port`, `pathname`, `search`) for the
common URL shapes the source handles; the scheme is the longest prefix
of scheme characters followed by a colon, lower-cased, exactly as
node's protocol pattern recognises it.
-/

/-- JS `Array.prototype.join(sep)`. -/
def jsJoin (sep : String) : List String → String
  | [] => ""
  | [a] => a
  | a :: rest => a ++ sep ++ jsJoin sep rest

/-- characters node's protocol pattern accepts in a scheme. -/
def isSchemeChar (c : Char) : Bool :=
  c.isAlpha || c.isDigit || c == '.' || c == '+' || c == '-'

/-- models `Url.parse(url).protocol`: the lower-cased scheme including
the trailing colon, or none when the URL has no scheme. -/
def urlProtocol (url : String) : Option String :=
  let scheme := strTakeWhile isSchemeChar url
  if scheme ≠ "" && strStartsWith (strDropChars url scheme.length) ":" then
    some (jsToLower scheme ++ ":")
  else
    none

/-- the substring following the scheme (and a `//` when present). -/
def urlAfterScheme (url : String) : String :=
  let rest :=
    match urlProtocol url with
    | some p => strDropChars url p.length
    | none => url
  if strStartsWith rest "//" then strDropChars rest 2 else rest

/-- models `Url.parse(url).host`: the authority component (host with
brackets and port, without userinfo). -/
def urlHost (url : String) : String :=
  let auth := strTakeWhile (fun c => c ≠ '/' && c ≠ '?' && c ≠ '#') (urlAfterScheme url)
  match splitOnChar '@' auth.data with
  | [] => auth
  | [a] => String.mk a
  | _ :: rest => jsJoin "@" (rest.map String.mk)

/-- models `Url.parse(url).hostname`: the host lower-cased, without
brackets or port. -/
def urlHostname (url : String) : Option String :=
  let h := urlHost url
  let h :=
    if strStartsWith h "[" then
      strTakeWhile (fun c => c ≠ ']') (strDropChars h 1)
    else
      strTakeWhile (fun c => c ≠ ':') h
  if h == "" then none else some (jsToLower h)

/-- models `Url.parse(url).port` as a number (node stores a digit
string; the source only compares it with 80/443 and prints it). -/
def urlPort (url : String) : Option Nat :=
  let h := urlHost url
  let p : List Char :=
    if strStartsWith h "[" then
      match splitOnChar ']' h.data with
      | [_, rest] =>
          match rest with
          | ':' :: t => t
          | _ => []
      | _ => []
    else
      match splitOnChar ':' h.data with
      | [_, p] => p
      | _ => []
  if p ≠ [] && p.all Char.isDigit then some (digitsToNat p) else none

/-- models `Url.parse(url).pathname` for http-style URLs (`/` when the
URL has an authority but no path). -/
def urlPathname (url : String) : String :=
  let rest := urlAfterScheme url
  let tail := strDropChars rest (strTakeWhile (fun c => c ≠ '/' && c ≠ '?' && c ≠ '#') rest).length
  let path := strTakeWhile (fun c => c ≠ '?' && c ≠ '#') tail
  if path == "" then "/" else path

/-- models `Url.parse(url).search` (including the question mark, empty
when absent). -/
def urlSearch (url : String) : String :=
  let rest := urlAfterScheme url
  let q := strDropChars rest (strTakeWhile (fun c => c ≠ '?' && c ≠ '#') rest).length
  if strStartsWith q "?" then strTakeWhile (fun c => c ≠ '#') q else ""

/-- the base64 alphabet used by node's `Buffer.toString('base64')`. -/
def base64Chars : List Char :=
  "ABCDEFGHIJKLMNOPQRSTUVWXYZabcdefghijklmnopqrstuvwxyz0123456789+/".toList

/-- one base64 digit. -/
def b64digit (n : Nat) : String := String.mk [base64Chars.getD n 'A']

/-- base64 encoding of a byte list (standard padding), modelling node's
`Buffer.from(s).toString('base64')`. -/
def base64Encode : List Nat → String
  | [] => ""
  | [b1] =>
      b64digit (b1 / 4) ++ b64digit (b1 % 4 * 16) ++ "=="
  | [b1, b2] =>
      b64digit (b1 / 4) ++ b64digit (b1 % 4 * 16 + b2 / 16) ++ b64digit (b2 % 16 * 4) ++ "="
  | b1 :: b2 :: b3 :: rest =>
      b64digit (b1 / 4) ++ b64digit (b1 % 4 * 16 + b2 / 16) ++
      b64digit (b2 % 16 * 4 + b3 / 64) ++ b64digit (b3 % 64) ++ base64Encode rest


/-!
The `send` method (source lines 388-723).  The guards and the whole
request-preparation sequence (protocol dispatch, default-header merge,
Host synthesis, basic auth, content headers) are transcribed; the
actual network/file/subprocess I/O is the external TransportAdapter /
file-reader / SyncBridge collaborator, so `sendM` stops at the point
where the source has issued the request (async) or is about to block
(sync).  The transport's delivery callbacks are the separate step
functions `respHeadersStep`, `respDataStep`, `respEndStep`,
`handleErrorM`, and the armed timeout timer's callback is
`timerFireStep`.
-/

/-- JS truthiness of an optional string (`undefined` and `''` are
falsy). -/
def strTruthy : Option String → Bool
  | some s => s ≠ ""
  | none => false

/-- the default-header merge loop of `send` (source lines 467-471): for
each entry of `this.defaultHeaders`, copy it into `this.headers` unless
`headersLowerCase` already has a truthy entry for its lower-cased
name. -/
def mergeDefaultHeaders (x : XHR) : XHR :=
  x.defaultHeaders.foldl
    (fun y p =>
      if strTruthy (assocGet y.headersLowerCase (jsToLower p.1)) then y
      else setHeaderEntry y p.1 p.2)
    x

/-- the tail of the http arm of `send` after header preparation (source
lines 521-640 minus the transport callbacks): reset of the error flag
happens in the caller; the async path sets the send flag, dispatches
`readystatechange`, installs the request handle and dispatches
`loadstart`; the synchronous path dispatches `loadstart` and enters
`LOADING` before the SyncBridge blocks. -/
def sendHttpIssue (st : XhrSettings) (x : XHR) : Except (XhrErr × XHR) XHR :=
  if st.async then
    let x := { x with sendFlag := true }
    let x := dispatchEvt "readystatechange" x
    let x := { x with request := some () }
    let x := dispatchEvt "loadstart" x
    .ok x
  else
    let x := dispatchEvt "loadstart" x
    let x := setStateM LOADING x
    .ok x

/-- the http/https arm of `send` after the guards (source lines
459-640): port defaulting, default-header merge, Host header synthesis
including the IPv6-bracket and non-default-port rules, basic auth,
content-length/content-type rules, error-flag reset, then either the
async issue (send flag, `readystatechange`, request handle,
`loadstart`) or the synchronous prefix (`loadstart`, `LOADING`) before
the SyncBridge blocks. -/
def sendHttp (ssl : Bool) (host : Option String) (data : Option String)
    (st : XhrSettings) (x : XHR) : Except (XhrErr × XHR) XHR :=
  let port : Nat := (urlPort st.url).getD (if ssl then 443 else 80)
  let x := mergeDefaultHeaders x
  let x :=
    match host with
    | some h => if h ≠ "" then setHeaderEntry x "Host" h else x
    | none => x
  let x :=
    if strStartsWith (urlHost st.url) "[" then
      setHeaderEntry x "Host" ("[" ++ ((assocGet (headersOf x) "Host").getD "undefined") ++ "]")
    else x
  let x :=
    if !((ssl && port == 443) || port == 80) then
      setHeaderEntry x "Host"
        (((assocGet (headersOf x) "Host").getD "undefined") ++ ":"
          ++ ((urlPort st.url).map natToString).getD "null")
    else x
  let stx :=
    match st.user with
    | some u =>
        if u ≠ "" then
          let pw := st.password.getD ""
          let st2 := { st with password := some pw }
          (st2, setHeaderEntry { x with settings := some st2 } "Authorization"
            ("Basic " ++ base64Encode (utf8Bytes (u ++ ":" ++ pw))))
        else (st, x)
    | none => (st, x)
  let st := stx.1
  let x := stx.2
  let x :=
    if st.method == "GET" || st.method == "HEAD" then x
    else if strTruthy data then
      let body := data.getD ""
      let x := setHeaderEntry x "Content-Length" (natToString (utf8Length body))
      if !(strTruthy (getRequestHeaderM x "Content-Type")) then
        setHeaderEntry x "Content-Type" "text/plain;charset=UTF-8"
      else x
    else if st.method == "POST" then
      setHeaderEntry x "Content-Length" "0"
    else x
  let x := { x with errorFlag := false }
  sendHttpIssue st x

/-- the `file:` arm of `send` (source lines 431-457): only GET is
permitted; the read itself is the external file collaborator, its
success callback is `fileDoneStep` and its failure path is
`handleErrorM`. -/
def sendFile (st : XhrSettings) (x : XHR) : Except (XhrErr × XHR) XHR :=
  if st.method ≠ "GET" then .error (.methodNotSupported, x)
  else .ok x

/-- the success callback of the file read (source lines 441-443 and
447-450): status 200, body set, state `DONE`. -/
def fileDoneStep (content : String) (x : XHR) : XHR :=
  let x := { x with status := 200 }
  let x := { x with responseText := content }
  setStateM DONE x

/-- `send` after its three guards: the protocol switch of source lines
408-428 and the dispatch to the file or http arm (absent scheme means
host `localhost`). -/
def sendAfterGuards (data : Option String) (st : XhrSettings) (x : XHR) :
    Except (XhrErr × XHR) XHR :=
  match urlProtocol st.url with
  | some p =>
      if p == "https:" then sendHttp true (urlHostname st.url) data st x
      else if p == "http:" then sendHttp false (urlHostname st.url) data st x
      else if p == "file:" then sendFile st x
      else .error (.protocolNotSupported, x)
  | none => sendHttp false (some "localhost") data st x

/-- `send` (source lines 388-723): the three `INVALID_STATE_ERR` guards
in source order (no Settings, not `OPENED`, send already in flight),
then the transcribed preparation and issue.  A guard failure throws
before anything is mutated, so the error carries `x` unchanged. -/
def sendM (data : Option String) (x : XHR) : Except (XhrErr × XHR) XHR :=
  match x.settings with
  | none => .error (.invalidState, x)
  | some st =>
      if x.readyState ≠ OPENED then .error (.invalidState, x)
      else if x.sendFlag then .error (.invalidState, x)
      else sendAfterGuards data st x

/-- `handleError` (source lines 838-845). -/
def handleErrorM (msg : String) (x : XHR) : XHR :=
  let x := { x with status := 0 }
  let x := { x with statusText := msg }
  let x := { x with responseText := msg }
  let x := { x with errorFlag := true }
  let x := dispatchEvt "error" x
  setStateM DONE x

/-- `handleTimeout` (source lines 821-833): additionally releases the
request handle before the error bookkeeping, and dispatches `timeout`
instead of `error`. -/
def handleTimeoutM (msg : String) (x : XHR) : XHR :=
  let x := { x with request := none }
  let x := { x with status := 0 }
  let x := { x with statusText := msg }
  let x := { x with responseText := msg }
  let x := { x with errorFlag := true }
  let x := dispatchEvt "timeout" x
  setStateM DONE x

/-- the callback armed by `setTimeout` in `send` (source lines 528-532):
when it fires it calls `handleTimeout` unless the ready state is
already `DONE`. -/
def timerFireStep (x : XHR) : XHR :=
  if x.readyState ≠ DONE then handleTimeoutM "Error: request timed out" x else x

/-- the `location` response header as the source reads it
(`self.response.headers.location`; node delivers it lower-cased and
joined to a string). -/
def respLocation (r : RespScript) : Option String :=
  match assocGet r.headers "location" with
  | some (.str s) => some s
  | _ => none

/-- the redirect test of source lines 562-569: a truthy `location`
header (JS falsiness: the empty string does not count) and a status
code in {301, 302, 303, 307}. -/
def isRedirectResp (r : RespScript) : Bool :=
  strTruthy (respLocation r) &&
    (r.statusCode == 301 || r.statusCode == 302 || r.statusCode == 303 || r.statusCode == 307)

/-- the head of the response handler for a non-redirect response (source
lines 601-604): store the response, move to `HEADERS_RECEIVED`, set
`status` from the status code. -/
def respHeadersStep (r : RespScript) (x : XHR) : XHR :=
  let x := { x with response := some r }
  let x := setStateM HEADERS_RECEIVED x
  { x with status := r.statusCode }

/-- the `data` callback (source lines 606-615): append a truthy chunk,
and re-enter `LOADING` only while the send flag is still set. -/
def respDataStep (chunk : String) (x : XHR) : XHR :=
  let x := if chunk ≠ "" then { x with responseText := x.responseText ++ chunk } else x
  if x.sendFlag then setStateM LOADING x else x

/-- the `end` callback (source lines 617-623): when the send flag is
still set, move to `DONE` and then clear the flag. -/
def respEndStep (x : XHR) : XHR :=
  if x.sendFlag then { setStateM DONE x with sendFlag := false } else x

/-- processing of one final (non-redirect) response: headers arrival,
each scripted chunk, then the end event. -/
def finishResp (r : RespScript) (x : XHR) : XHR :=
  respEndStep ((r.chunks.foldl (fun y c => respDataStep c y) (respHeadersStep r x)))

/-- one redirect hop of the response handler (source lines 578-595):
store the response, rewrite the Settings URL to the Location target and
issue a new request (the handle is replaced). -/
def followStep (x : XHR) (r : RespScript) : XHR :=
  let x := { x with response := some r }
  match x.settings with
  | some st =>
      { x with settings := some { st with url := (respLocation r).getD "" },
               request := some () }
  | none => x

/-- the response handler closure of the async path (source lines
552-628), run over a scripted list of successive transport responses.
`redirectCount` is the closure-captured counter.  A redirect hop
increments it and throws the redirect-loop error once it reaches 10,
otherwise follows the Location (recording the re-issued request's
method — downgraded to GET exactly for a 303 — and target URL in
`issued`); the first non-redirect response is streamed to completion.
An empty script means the transport never answered (no state change).
Thrown errors carry the state at the throw. -/
def processResponses (x : XHR) (redirectCount : Nat) (issued : List (String × String)) :
    List RespScript → Except (XhrErr × XHR) (XHR × List (String × String))
  | [] => .ok (x, issued)
  | r :: rest =>
      let x1 := { x with response := some r }
      match x1.settings with
      | none => .error (.invalidState, x1)
      | some st =>
          if isRedirectResp r then
            if 10 ≤ redirectCount + 1 then .error (.redirectLoop, x1)
            else
              processResponses (followStep x r) (redirectCount + 1)
                (issued ++ [(if r.statusCode == 303 then "GET" else st.method,
                             (respLocation r).getD "")])
                rest
          else
            .ok (finishResp r x1, issued)

/-- JS `s.substr(0, n)` (the source calls it with
`result.length - 2`; a negative JS length yields the empty string,
matching truncated subtraction on Nat). -/
def jsSubstr (s : String) (n : Nat) : String := String.mk (s.data.take n)

/-- the body of the `for-in` loop of `getAllResponseHeaders` (source
lines 321-334): skip the cookie-setting headers, otherwise append
`name: value` (string), `name: v1, v2` (array) or `name:` (undefined),
each terminated by CRLF. -/
def respHeaderFoldStep (acc : String) (p : String × HeaderValue) : String :=
  if p.1 ≠ "set-cookie" ∧ p.1 ≠ "set-cookie2" then
    match p.2 with
    | .str v => acc ++ (p.1 ++ ": " ++ v ++ "\r\n")
    | .arr l => acc ++ (p.1 ++ ": " ++ jsJoin ", " l ++ "\r\n")
    | .undef => acc ++ (p.1 ++ ":\r\n")
  else acc

/-- `getAllResponseHeaders` (source lines 314-338): null before
`HEADERS_RECEIVED` or when the error flag is set; otherwise a fold over
the response headers in arrival order, and the final `substr` strips
the trailing two characters (a CRLF whenever anything was emitted). -/
def getAllResponseHeadersM (x : XHR) : Option String :=
  if decide (x.readyState < HEADERS_RECEIVED) || x.errorFlag then none
  else
    let result :=
      match x.response with
      | some resp => resp.headers.foldl respHeaderFoldStep ""
      | none => ""
    some (jsSubstr result (result.length - 2))

/-- the response headers currently held (empty when no response). -/
def responseHeaders (x : XHR) : List (String × HeaderValue) :=
  match x.response with
  | some resp => resp.headers
  | none => []

/-- the line `getAllResponseHeaders` renders for one header, without the
CRLF terminator. -/
def headerLine (p : String × HeaderValue) : String :=
  match p.2 with
  | .str v => p.1 ++ ": " ++ v
  | .arr l => p.1 ++ ": " ++ jsJoin ", " l
  | .undef => p.1 ++ ":"

/-!
The event dispatcher (source lines 758-793).  Handlers are identified
by numbers; `eff h s` is the net effect invoking handler `h` has on the
dispatched event's listener array `s` (an `addEventListener` during
dispatch pushes onto the live array; a `removeEventListener` replaces
it by a filtered copy, which the loop observes because it re-reads
`this.listeners[event]` on every iteration).  `dispatchEvent` first
calls the single `on<event>` slot handler when one is bound, then runs
`for(let i = 0, len = list.length; i < len; i++) list[i].call(...)`:
`len` is captured once, after the slot handler ran, while the element
read `list[i]` sees the current array.  Reading past the end of a
shrunk array yields `undefined` and the `.call` on it throws a
TypeError, modelled by `none`. -/

/-- the listener `for` loop of `dispatchEvent` (source lines 788-792):
`k` is the remaining iteration count of the captured bound `len`, `i`
the current index, `store` the live listener array.  Returns the
invocation sequence and the final array, or `none` for the
TypeError on an out-of-range read. -/
def listenerLoop (eff : Nat → List Nat → List Nat) :
    Nat → Nat → List Nat → Option (List Nat × List Nat)
  | 0, _, store => some ([], store)
  | k + 1, i, store =>
      match store.get? i with
      | none => none
      | some h =>
          match listenerLoop eff k (i + 1) (eff h store) with
          | none => none
          | some (inv, fin) => some (h :: inv, fin)

/-- the listener array as it stands after the optional slot handler has
run. -/
def storeAfterSlot (slot : Option Nat) (eff : Nat → List Nat → List Nat)
    (store : List Nat) : List Nat :=
  match slot with
  | some h => eff h store
  | none => store

/-- the invocation the slot handler contributes. -/
def slotCalls (slot : Option Nat) : List Nat :=
  match slot with
  | some h => [h]
  | none => []

/-- `dispatchEvent` (source lines 782-793): invoke the `on<event>` slot
handler when bound, then run the listener loop with the bound captured
from the then-current array.  Returns the full invocation sequence and
the final listener array (`none` models the TypeError of calling an
`undefined` array slot). -/
def dispatchEventModel (slot : Option Nat) (eff : Nat → List Nat → List Nat)
    (store : List Nat) : Option (List Nat × List Nat) :=
  let s1 := storeAfterSlot slot eff store
  match listenerLoop eff s1.length 0 s1 with
  | none => none
  | some (inv, fin) => some (slotCalls slot ++ inv, fin)

/-!
Concrete execution scenarios shared by several results below.  `okOr`
merely extracts the state from an `Except` result (all uses are on
succeeding calls, verified by the kernel when the closed theorems are
checked).
-/

/-- state extraction from a method result. -/
def okOr : Except (XhrErr × XHR) XHR → XHR
  | .ok y => y
  | .error (_, y) => y

/-- the error constructor and ready state at the throw, for closed
statements about failing runs. -/
def errProbe {β : Type} : Except (XhrErr × XHR) β → Option (XhrErr × Nat)
  | .error (e, y) => some (e, y.readyState)
  | .ok _ => none

/-- an object on which `open('GET', 'http://example.com/a')` has run,
with a 100 ms timeout configured (as in the repository's own
`test.js`). -/
def xhrOpened : XHR :=
  { okOr (openM "GET" "http://example.com/a" true none none initialXHR) with timeout := 100 }

/-- `xhrOpened` after `send()` has issued the async request: the send
flag is set, the ready state is still `OPENED`, and the timeout timer
of `send` is armed. -/
def xhrSent : XHR := okOr (sendM none xhrOpened)

/-- a redirect response with the given status and Location target. -/
def mkRedirect (code : Nat) (loc : String) : RespScript :=
  { statusCode := code, headers := [("location", HeaderValue.str loc)], chunks := [] }

/-- a chain of `n` permanent-redirect responses. -/
def redirectChain (n : Nat) : List RespScript :=
  (List.range n).map (fun i => mkRedirect 301 ("http://host/hop" ++ natToString i))

/-- a final 200 response carrying one body chunk. -/
def finalResp : RespScript := { statusCode := 200, headers := [], chunks := ["hello"] }

/-- the object after `setRequestHeader('X-Foo','v')` followed by a
second `open()`. -/
def xhrReopened : XHR :=
  okOr (openM "GET" "http://example.com/b" true none none
    (okOr (setRequestHeaderM "X-Foo" "v" xhrOpened)))

/-- a plain 200 response whose body will stream in separate chunks. -/
def okResp : RespScript :=
  { statusCode := 200, headers := [("content-type", HeaderValue.str "text/plain")], chunks := [] }

/-- `xhrSent` after the response headers and a first body chunk arrived:
ready state `LOADING`, send flag still set. -/
def xhrStreaming : XHR := respDataStep "a" (respHeadersStep okResp xhrSent)

/-- C2.  The claim says `loadend` is dispatched exactly once per
`send()` on every terminal path, "even when a configured timeout timer
fires after the request was already aborted".  The code violates this:
`abort()` passes through `DONE` (dispatching `loadend`) and then resets
`readyState` to `UNSENT`, so the armed timer's guard
`readyState !== DONE` passes and `handleTimeout` runs `setState(DONE)`
a second time — the trace of `open(); send(); abort(); <timer fires>`
contains `loadend` twice. -/
theorem c2_loadend_twice_after_abort_then_timer :
    ((timerFireStep (abortM xhrSent)).events.filter (fun e => e == "loadend")).length = 2 := by
  decide

/-- C3.  The claim says headers set before a subsequent `open()` are
re-initialized, so `getRequestHeader` afterwards reflects only the
default header set.  The code violates this: `abort()` (run by every
`open()`) executes `this.headers = this.defaultHeaders`, aliasing the
two objects, so the later `setRequestHeader('X-Foo','v')` wrote 'X-Foo'
into `defaultHeaders` itself, `headersLowerCase` is never cleared, and
after the second `open()` the old value is still readable — even
though `X-Foo` is not a default header. -/
theorem c3_header_survives_reopen :
    getRequestHeaderM xhrReopened "x-foo" = some "v"
      ∧ assocGet initialXHR.defaultHeaders "X-Foo" = none := by
  decide

/-- C8.  The claim says `readyState` never decreases within one send
lifecycle except through `abort()`/`open()`.  The code violates this:
`handleTimeout` forces `DONE` but does not clear the send flag, so a
transport `data` callback arriving after the timeout re-enters
`LOADING` — `readyState` moves from 4 back to 3 without any
`abort()`/`open()` call. -/
theorem c8_data_after_timeout_decreases_state :
    (timerFireStep xhrStreaming).readyState = DONE
      ∧ (respDataStep "b" (timerFireStep xhrStreaming)).readyState = LOADING := by
  decide

/-- C1 counterexample.  The claim says a redirect chain of exactly 10
hops completes successfully.  On the code, the closure counter is
incremented on each redirect response and `redirectCount >= 10` throws,
so the 10th redirect response already raises the redirect-loop error —
while the ready state is still `OPENED`, before `DONE` is ever
reached. -/
theorem c1_ten_hop_chain_fails :
    errProbe (processResponses xhrSent 0 [] (redirectChain 10 ++ [finalResp]))
      = some (.redirectLoop, OPENED) := by
  decide

/-- the effect of a dispatch in which handler 0's body calls
`removeEventListener` for handler 1 (the source's `filter` by callback
identity, assigned back to the live array); every other handler leaves
the listener array alone. -/
def removesListenerOne : Nat → List Nat → List Nat :=
  fun h s => if h == 0 then s.filter (fun k => !(k == 1)) else s

/-- C4 counterexample.  The claim says the listener list is snapshotted
at dispatch start, so removals by a handler during dispatch do not
change which callbacks the in-progress dispatch invokes.  The code only
captures the array length; each iteration re-reads the live array.
With listeners [0, 1] where handler 0 removes handler 1, the loop's
second iteration reads index 1 of the shrunken one-element array —
`undefined` — and calling it throws (modelled by `none`), instead of
invoking the snapshot [0, 1] (the second conjunct shows the
unmodified-list baseline for contrast). -/
theorem c4_removal_during_dispatch_not_insulated :
    dispatchEventModel none removesListenerOne [0, 1] = none
      ∧ dispatchEventModel none (fun _ s => s) [0, 1] = some ([0, 1], [0, 1]) := by
  decide

/-- when every handler's effect only appends to the listener array, the
loop (whose bound was captured from `s1`) invokes exactly the elements
of `s1` from index `i` on. -/
theorem listenerLoop_of_append_only (eff : Nat → List Nat → List Nat)
    (hext : ∀ h s, ∃ t, eff h s = s ++ t) :
    ∀ (k i : Nat) (s1 store : List Nat), i + k = s1.length → (∃ u, store = s1 ++ u) →
      ∃ fin, listenerLoop eff k i store = some (s1.drop i, fin) := by
  intro k
  induction k with
  | zero =>
      intro i s1 store hik _
      refine ⟨store, ?_⟩
      have hdrop : s1.drop i = [] := List.drop_eq_nil_of_le (by omega)
      simp [listenerLoop, hdrop]
  | succ k ih =>
      intro i s1 store hik hpre
      obtain ⟨u, rfl⟩ := hpre
      have hi : i < s1.length := by omega
      have hget : (s1 ++ u).get? i = some (s1.get ⟨i, hi⟩) := by
        rw [List.get?_append hi]
        exact List.get?_eq_get hi
      obtain ⟨t, heff⟩ := hext (s1.get ⟨i, hi⟩) (s1 ++ u)
      have hrec := ih (i + 1) s1 (eff (s1.get ⟨i, hi⟩) (s1 ++ u))
        (by omega) ⟨u ++ t, by rw [heff, List.append_assoc]⟩
      obtain ⟨fin, hloop⟩ := hrec
      refine ⟨fin, ?_⟩
      simp only [listenerLoop, hget, hloop]
      have : s1.get ⟨i, hi⟩ :: s1.drop (i + 1) = s1.drop i := List.get_cons_drop s1 ⟨i, hi⟩
      rw [this]

/-- C4 (amended).  `dispatchEvent` invokes, in order, the `on<event>`
slot handler when bound, then the listeners; the loop bound is captured
once — after the slot handler has run — so listeners *appended* by any
handler during the listener loop are not invoked by the in-progress
dispatch, and the invocation sequence is exactly the slot followed by
the listener array as it stood when the loop began.  (Removals are not
insulated; see the counterexample.) -/
theorem c4_dispatch_order_amended (slot : Option Nat) (eff : Nat → List Nat → List Nat)
    (store : List Nat) (hext : ∀ h s, ∃ t, eff h s = s ++ t) :
    ∃ fin, dispatchEventModel slot eff store
      = some (slotCalls slot ++ storeAfterSlot slot eff store, fin) := by
  obtain ⟨fin, hloop⟩ := listenerLoop_of_append_only eff hext
    (storeAfterSlot slot eff store).length 0 (storeAfterSlot slot eff store)
    (storeAfterSlot slot eff store) (by omega) ⟨[], by simp⟩
  refine ⟨fin, ?_⟩
  unfold dispatchEventModel
  simp only [hloop, List.drop_zero]

/-- C4 amended witness: a slot handler 7 and listeners [1, 2] with
inert effects. -/
theorem c4_dispatch_order_amended_witness :
    ∃ fin, dispatchEventModel (some 7) (fun _ s => s) [1, 2]
      = some (slotCalls (some 7) ++ storeAfterSlot (some 7) (fun _ s => s) [1, 2], fin) :=
  c4_dispatch_order_amended (some 7) (fun _ s => s) [1, 2]
    (fun _ s => ⟨[], by simp⟩)

/-- C5 counterexample.  The claim says `setRequestHeader` called after
send has started fails by throwing InvalidState, while forbidden
headers fail silently "regardless of call order".  These conflict on
the code: the forbidden-header check precedes the send-flag check, so
with the send flag set and the ready state still `OPENED`, a forbidden
header (`cookie`) returns silently with the state unchanged instead of
throwing. -/
theorem c5_forbidden_after_send_is_silent :
    xhrSent.readyState = OPENED ∧ xhrSent.sendFlag = true
      ∧ setRequestHeaderM "cookie" "session=1" xhrSent = .ok xhrSent :=
  ⟨by decide, by decide, rfl⟩

/-- C5 (amended).  `setRequestHeader` throws InvalidState whenever the
ready state is not `OPENED`; in `OPENED`, a header in the forbidden set
(with the check enabled) always fails silently with no effect on the
state — even after send has started, because the forbidden-header
check precedes the send-flag check — and an *allowed* header after
send has started throws InvalidState. -/
theorem c5_set_request_header_amended (x : XHR) (h v : String) :
    (x.readyState ≠ OPENED → setRequestHeaderM h v x = .error (.invalidState, x))
    ∧ (x.readyState = OPENED → isAllowedHttpHeader x h = false →
        setRequestHeaderM h v x = .ok x)
    ∧ (x.readyState = OPENED → isAllowedHttpHeader x h = true → x.sendFlag = true →
        setRequestHeaderM h v x = .error (.invalidState, x)) := by
  refine ⟨fun h1 => ?_, fun h1 h2 => ?_, fun h1 h2 h3 => ?_⟩
  · simp [setRequestHeaderM, h1]
  · simp [setRequestHeaderM, h1, h2]
  · simp [setRequestHeaderM, h1, h2, h3]

/-- C5 amended witness: before `open` an allowed header throws; after
`send` a forbidden header is silent while an allowed one throws. -/
theorem c5_set_request_header_amended_witness :
    setRequestHeaderM "X-A" "1" initialXHR = .error (.invalidState, initialXHR)
      ∧ setRequestHeaderM "cookie" "1" xhrSent = .ok xhrSent
      ∧ setRequestHeaderM "X-A" "1" xhrSent = .error (.invalidState, xhrSent) :=
  ⟨(c5_set_request_header_amended initialXHR "X-A" "1").1 (by decide),
   (c5_set_request_header_amended xhrSent "cookie" "1").2.1 (by decide) (by decide),
   (c5_set_request_header_amended xhrSent "X-A" "1").2.2 (by decide) (by decide) (by decide)⟩

/-- updating a key and reading it back yields the new value. -/
theorem assocGet_assocSet_self {α : Type} (l : List (String × α)) (k : String) (v : α) :
    assocGet (assocSet l k v) k = some v := by
  induction l with
  | nil => simp [assocSet, assocGet]
  | cons p rest ih =>
      obtain ⟨k', v'⟩ := p
      by_cases h : k' = k
      · simp [assocSet, assocGet, h]
      · simp [assocSet, assocGet, h, ih]

/-- updating one key leaves every other key's lookup unchanged. -/
theorem assocGet_assocSet_ne {α : Type} (l : List (String × α)) (k k' : String) (v : α)
    (h : k' ≠ k) : assocGet (assocSet l k v) k' = assocGet l k' := by
  induction l with
  | nil => simp [assocSet, assocGet, Ne.symm h]
  | cons p rest ih =>
      obtain ⟨k0, v0⟩ := p
      by_cases h0 : k0 = k
      · subst h0
        simp [assocSet, assocGet, Ne.symm h]
      · simp [assocSet, assocGet, h0, ih]

/-- the `this.headers` reference after a write refers to the written
list. -/
theorem headersOf_setHeaders (x : XHR) (l : List (String × String)) :
    headersOf (setHeaders x l) = l := by
  unfold headersOf setHeaders
  by_cases h : x.headersAliased <;> simp [h]

/-- writing through the `this.headers` reference does not change the
lower-case shadow table. -/
theorem setHeaders_headersLowerCase (x : XHR) (l : List (String × String)) :
    (setHeaders x l).headersLowerCase = x.headersLowerCase := by
  unfold setHeaders
  by_cases h : x.headersAliased <;> simp [h]

/-- writing through the `this.headers` reference does not change the
ready state. -/
theorem setHeaders_readyState (x : XHR) (l : List (String × String)) :
    (setHeaders x l).readyState = x.readyState := by
  unfold setHeaders
  by_cases h : x.headersAliased <;> simp [h]

/-- writing through the `this.headers` reference does not change the
send flag. -/
theorem setHeaders_sendFlag (x : XHR) (l : List (String × String)) :
    (setHeaders x l).sendFlag = x.sendFlag := by
  unfold setHeaders
  by_cases h : x.headersAliased <;> simp [h]

/-- writing through the `this.headers` reference does not change the
header-check switch. -/
theorem setHeaders_disableHeaderCheck (x : XHR) (l : List (String × String)) :
    (setHeaders x l).disableHeaderCheck = x.disableHeaderCheck := by
  unfold setHeaders
  by_cases h : x.headersAliased <;> simp [h]

/-- the `this.headers` reference is insensitive to updates of the
lower-case shadow table. -/
theorem headersOf_update_lcs (x : XHR) (l : List (String × String)) :
    headersOf { x with headersLowerCase := l } = headersOf x := rfl

/-- C6 counterexample.  The claim's round trip "set a then b yields
'a, b'" fails (1) for an allowed header whose exact-cased key is
already stored — after `open()`, `this.headers` aliases the default
set, so `User-Agent: a` then `b` reads back with the default value
prepended — and (2) for an empty first value, which JS falsiness
treats as absent so the second set stores just "b". -/
theorem c6_round_trip_counterexample :
    getRequestHeaderM
        (okOr (setRequestHeaderM "User-Agent" "b"
          (okOr (setRequestHeaderM "User-Agent" "a" xhrOpened)))) "user-agent"
      = some "ts-XMLHttpRequest, a, b"
    ∧ getRequestHeaderM
        (okOr (setRequestHeaderM "X-Foo" "b"
          (okOr (setRequestHeaderM "X-Foo" "" xhrOpened)))) "x-foo"
      = some "b" := by
  decide


/-- with all three checks passing, `setRequestHeader` returns the
mutated state. -/
theorem setRequestHeaderM_ok (x : XHR) (n v : String) (h1 : x.readyState = OPENED)
    (h2 : x.sendFlag = false) (h3 : isAllowedHttpHeader x n = true) :
    setRequestHeaderM n v x = .ok (applySetHeader x n v) := by
  unfold setRequestHeaderM
  simp [h1, h2, h3]

/-- `applySetHeader` keeps the ready state. -/
theorem applySetHeader_readyState (x : XHR) (n v : String) :
    (applySetHeader x n v).readyState = x.readyState := by
  unfold applySetHeader
  rw [setHeaders_readyState]

/-- `applySetHeader` keeps the send flag. -/
theorem applySetHeader_sendFlag (x : XHR) (n v : String) :
    (applySetHeader x n v).sendFlag = x.sendFlag := by
  unfold applySetHeader
  rw [setHeaders_sendFlag]

/-- `applySetHeader` keeps the header-check switch. -/
theorem applySetHeader_disableHeaderCheck (x : XHR) (n v : String) :
    (applySetHeader x n v).disableHeaderCheck = x.disableHeaderCheck := by
  unfold applySetHeader
  rw [setHeaders_disableHeaderCheck]

/-- setting a header with no shadow-table entry for its lower-cased name
records the given casing as canonical. -/
theorem applySetHeader_lcs_fresh (x : XHR) (n v : String)
    (h8 : assocGet x.headersLowerCase (jsToLower n) = none) :
    (applySetHeader x n v).headersLowerCase
      = assocSet x.headersLowerCase (jsToLower n) n := by
  unfold applySetHeader
  rw [h8, setHeaders_headersLowerCase]

/-- setting a header with no shadow-table entry and no exact-cased key
stores the bare value under the given casing. -/
theorem applySetHeader_headers_fresh (x : XHR) (n v : String)
    (h8 : assocGet x.headersLowerCase (jsToLower n) = none)
    (h9 : assocGet (headersOf x) n = none) :
    headersOf (applySetHeader x n v) = assocSet (headersOf x) n v := by
  unfold applySetHeader
  rw [h8, headersOf_setHeaders, headersOf_update_lcs, h9]

/-- setting a header whose lower-cased name already has a (truthy)
canonical casing `c` writes through `c`: the shadow table is refreshed
at `jsToLower c` and the value is appended after the value already
stored under `c` (if that one is non-empty). -/
theorem applySetHeader_existing (x : XHR) (n v c old : String)
    (h8 : assocGet x.headersLowerCase (jsToLower n) = some c) (hc : c ≠ "")
    (h9 : assocGet (headersOf x) c = some old) (hold : old ≠ "") :
    (applySetHeader x n v).headersLowerCase = assocSet x.headersLowerCase (jsToLower c) c
      ∧ headersOf (applySetHeader x n v) = assocSet (headersOf x) c (old ++ ", " ++ v) := by
  unfold applySetHeader
  rw [h8]
  simp [hc, setHeaders_headersLowerCase, headersOf_setHeaders, headersOf_update_lcs, h9, hold]

/-- the forbidden-header check depends only on the name's lower-casing
and the check switch. -/
theorem isAllowedHttpHeader_congr (x y : XHR) (n1 n2 : String)
    (hd : y.disableHeaderCheck = x.disableHeaderCheck)
    (hn : jsToLower n2 = jsToLower n1) (h5 : n2 ≠ "")
    (h3 : isAllowedHttpHeader x n1 = true) : isAllowedHttpHeader y n2 = true := by
  unfold isAllowedHttpHeader at h3 ⊢
  rw [hd, hn]
  cases hdc : x.disableHeaderCheck with
  | true => simp
  | false =>
      rw [hdc] at h3
      simp only [Bool.false_or, Bool.and_eq_true, decide_eq_true_eq] at h3 ⊢
      exact ⟨h5, h3.2⟩

/-- C6 (amended).  For an allowed header name that is not yet present —
no entry in the lower-case shadow table and no exact-cased key in the
current header object (after `open()` the defaults `User-Agent` and
`Accept` are exact-cased keys, see the counterexample) — setting
values `a` (non-empty, see the counterexample) then `b` under any two
casings of the name stores `a, b`, readable via `getRequestHeader`
under any casing of the name, and the casing of the first set call is
the canonical casing recorded in the shadow table. -/
theorem c6_round_trip_amended (x : XHR) (n1 n2 m a b : String)
    (h1 : x.readyState = OPENED) (h2 : x.sendFlag = false)
    (h3 : isAllowedHttpHeader x n1 = true) (h4 : n1 ≠ "") (h5 : n2 ≠ "")
    (h6 : jsToLower n2 = jsToLower n1) (h7 : jsToLower m = jsToLower n1)
    (h8 : assocGet x.headersLowerCase (jsToLower n1) = none)
    (h9 : assocGet (headersOf x) n1 = none)
    (h10 : a ≠ "") :
    setRequestHeaderM n1 a x = .ok (applySetHeader x n1 a)
    ∧ setRequestHeaderM n2 b (applySetHeader x n1 a)
        = .ok (applySetHeader (applySetHeader x n1 a) n2 b)
    ∧ getRequestHeaderM (applySetHeader (applySetHeader x n1 a) n2 b) m
        = some (a ++ ", " ++ b)
    ∧ assocGet (applySetHeader (applySetHeader x n1 a) n2 b).headersLowerCase
        (jsToLower n1) = some n1 := by
  have e1 := setRequestHeaderM_ok x n1 a h1 h2 h3
  have r1 : (applySetHeader x n1 a).readyState = OPENED := by
    rw [applySetHeader_readyState]; exact h1
  have s1 : (applySetHeader x n1 a).sendFlag = false := by
    rw [applySetHeader_sendFlag]; exact h2
  have lcs1 : (applySetHeader x n1 a).headersLowerCase
      = assocSet x.headersLowerCase (jsToLower n1) n1 := applySetHeader_lcs_fresh x n1 a h8
  have hd1 : headersOf (applySetHeader x n1 a) = assocSet (headersOf x) n1 a :=
    applySetHeader_headers_fresh x n1 a h8 h9
  have hall2 : isAllowedHttpHeader (applySetHeader x n1 a) n2 = true :=
    isAllowedHttpHeader_congr x (applySetHeader x n1 a) n1 n2
      (applySetHeader_disableHeaderCheck x n1 a) h6 h5 h3
  have e2 := setRequestHeaderM_ok (applySetHeader x n1 a) n2 b r1 s1 hall2
  have h8' : assocGet (applySetHeader x n1 a).headersLowerCase (jsToLower n2) = some n1 := by
    rw [lcs1, h6, assocGet_assocSet_self]
  have h9' : assocGet (headersOf (applySetHeader x n1 a)) n1 = some a := by
    rw [hd1, assocGet_assocSet_self]
  obtain ⟨lcs2, hd2⟩ := applySetHeader_existing (applySetHeader x n1 a) n2 b n1 a h8' h4 h9' h10
  refine ⟨e1, e2, ?_, ?_⟩
  · unfold getRequestHeaderM
    rw [h7, lcs2, lcs1, assocGet_assocSet_self]
    simp only [h4, ne_eq, not_false_eq_true, ite_true]
    rw [hd2, assocGet_assocSet_self]
  · rw [lcs2, lcs1, assocGet_assocSet_self]

/-- C6 amended witness: `X-Bar: a` then `x-bAr: b` on a freshly opened
object, read back as `X-BAR`. -/
theorem c6_round_trip_amended_witness :
    setRequestHeaderM "X-Bar" "a" xhrOpened = .ok (applySetHeader xhrOpened "X-Bar" "a")
    ∧ setRequestHeaderM "x-bAr" "b" (applySetHeader xhrOpened "X-Bar" "a")
        = .ok (applySetHeader (applySetHeader xhrOpened "X-Bar" "a") "x-bAr" "b")
    ∧ getRequestHeaderM (applySetHeader (applySetHeader xhrOpened "X-Bar" "a") "x-bAr" "b")
        "X-BAR" = some ("a" ++ ", " ++ "b")
    ∧ assocGet (applySetHeader (applySetHeader xhrOpened "X-Bar" "a") "x-bAr" "b").headersLowerCase
        (jsToLower "X-Bar") = some "X-Bar" :=
  c6_round_trip_amended xhrOpened "X-Bar" "x-bAr" "X-BAR" "a" "b"
    (by decide) (by decide) (by decide) (by decide) (by decide)
    (by decide) (by decide) (by decide) (by decide) (by decide)

/-- the cookie-header exclusion of `getAllResponseHeaders` as a
predicate. -/
def keepHeader (p : String × HeaderValue) : Bool :=
  !(p.1 == "set-cookie") && !(p.1 == "set-cookie2")

/-- concatenation of lines, each terminated by CRLF. -/
def crlfConcat : List String → String
  | [] => ""
  | a :: rest => (a ++ "\r\n") ++ crlfConcat rest

/-- one kept fold step appends the rendered line plus CRLF. -/
theorem respHeaderFoldStep_keep (acc : String) (p : String × HeaderValue)
    (hk : p.1 ≠ "set-cookie" ∧ p.1 ≠ "set-cookie2") :
    respHeaderFoldStep acc p = acc ++ (headerLine p ++ "\r\n") := by
  obtain ⟨n, hv⟩ := p
  cases hv <;> simp [respHeaderFoldStep, headerLine, hk.1, hk.2, String.append_assoc]

/-- one skipped fold step leaves the accumulator alone. -/
theorem respHeaderFoldStep_skip (acc : String) (p : String × HeaderValue)
    (hk : ¬(p.1 ≠ "set-cookie" ∧ p.1 ≠ "set-cookie2")) :
    respHeaderFoldStep acc p = acc := by
  unfold respHeaderFoldStep
  rw [if_neg hk]

/-- the header fold renders exactly the kept headers' lines, each
CRLF-terminated, after the accumulator. -/
theorem foldl_respHeaderFoldStep (H : List (String × HeaderValue)) :
    ∀ acc : String, H.foldl respHeaderFoldStep acc
      = acc ++ crlfConcat ((H.filter keepHeader).map headerLine) := by
  induction H with
  | nil => intro acc; simp [crlfConcat]
  | cons p rest ih =>
      intro acc
      by_cases hk : p.1 ≠ "set-cookie" ∧ p.1 ≠ "set-cookie2"
      · have hkb : keepHeader p = true := by
          simp [keepHeader, hk.1, hk.2]
        rw [List.foldl_cons, respHeaderFoldStep_keep acc p hk, ih,
          List.filter_cons_of_pos hkb, List.map_cons]
        show _ = acc ++ ((headerLine p ++ "\r\n") ++ _)
        rw [String.append_assoc]
      · have hkb : keepHeader p = false := by
          simp only [not_and_or, not_not] at hk
          rcases hk with h | h <;> simp [keepHeader, h]
        rw [List.foldl_cons, respHeaderFoldStep_skip acc p hk, ih,
          List.filter_cons_of_neg (by simp [hkb])]

/-- a nonempty CRLF-terminated concatenation is at least two characters
long. -/
theorem crlfConcat_length_ge (a : String) (L : List String) :
    2 ≤ (crlfConcat (a :: L)).length := by
  show 2 ≤ ((a ++ "\r\n") ++ crlfConcat L).length
  rw [String.length_append, String.length_append,
    show ("\r\n" : String).length = 2 from rfl]
  omega

/-- stripping the final two characters of a CRLF-terminated
concatenation yields the CRLF-separated join. -/
theorem jsSubstr_crlfConcat (L : List String) :
    jsSubstr (crlfConcat L) ((crlfConcat L).length - 2) = jsJoin "\r\n" L := by
  induction L with
  | nil => rfl
  | cons a t ih =>
      cases t with
      | nil =>
          show jsSubstr ((a ++ "\r\n") ++ "") (((a ++ "\r\n") ++ "").length - 2) = a
          rw [String.append_empty, String.length_append]
          show String.mk ((a ++ "\r\n").data.take (a.length + 2 - 2)) = a
          rw [String.data_append]
          have h2 : a.length + 2 - 2 = a.data.length := rfl
          rw [h2, List.take_left]
      | cons b t' =>
          have hR : 2 ≤ (crlfConcat (b :: t')).length := crlfConcat_length_ge b t'
          show jsSubstr ((a ++ "\r\n") ++ crlfConcat (b :: t'))
              (((a ++ "\r\n") ++ crlfConcat (b :: t')).length - 2)
            = a ++ "\r\n" ++ jsJoin "\r\n" (b :: t')
          rw [String.length_append, String.length_append]
          have harith : a.length + 2 + (crlfConcat (b :: t')).length - 2
              = (a ++ "\r\n").data.length + ((crlfConcat (b :: t')).length - 2) := by
            have hl : (a ++ "\r\n").data.length = a.length + 2 := by
              rw [String.data_append, List.length_append]
              rfl
            omega
          show String.mk (((a ++ "\r\n").data ++ (crlfConcat (b :: t')).data).take
              (a.length + 2 + (crlfConcat (b :: t')).length - 2)) = _
          rw [harith, List.take_append]
          apply String.ext
          show (a ++ "\r\n").data ++ (crlfConcat (b :: t')).data.take _
            = ((a ++ "\r\n") ++ jsJoin "\r\n" (b :: t')).data
          rw [String.data_append]
          congr 1
          have := congrArg String.data ih
          exact this

/-- C7 (confirmed).  `getAllResponseHeaders()` returns null exactly when
the ready state is below `HEADERS_RECEIVED` or the error flag is set;
otherwise it returns the response headers (none of which is
`set-cookie` or `set-cookie2`) rendered in order and joined by CRLF
with the trailing CRLF stripped, array-valued headers joined by
`, ` inside their line. -/
theorem c7_get_all_response_headers (x : XHR) :
    getAllResponseHeadersM x =
      if decide (x.readyState < HEADERS_RECEIVED) || x.errorFlag then none
      else some (jsJoin "\r\n" (((responseHeaders x).filter keepHeader).map headerLine)) := by
  unfold getAllResponseHeadersM
  by_cases hc : (decide (x.readyState < HEADERS_RECEIVED) || x.errorFlag) = true
  · simp only [hc, if_true]
  · simp only [Bool.not_eq_true] at hc
    simp only [hc, Bool.false_eq_true, if_false]
    cases hr : x.response with
    | none => simp [responseHeaders, hr]; rfl
    | some resp =>
        simp only [responseHeaders, hr]
        rw [foldl_respHeaderFoldStep resp.headers "", String.empty_append,
          jsSubstr_crlfConcat]

/-- the issue tail of the http arm always succeeds. -/
theorem sendHttpIssue_isOk (st : XhrSettings) (x : XHR) :
    ∃ y, sendHttpIssue st x = .ok y := by
  unfold sendHttpIssue
  split <;> exact ⟨_, rfl⟩

/-- the http/https arm of `send` never throws (its failures arrive later
through the transport callbacks). -/
theorem sendHttp_isOk (ssl : Bool) (host : Option String) (d : Option String)
    (st : XhrSettings) (x : XHR) : ∃ y, sendHttp ssl host d st x = .ok y := by
  unfold sendHttp
  exact sendHttpIssue_isOk _ _

/-- after the three guards, `send` never throws an InvalidState error:
its remaining throws are the protocol and file-method errors. -/
theorem sendAfterGuards_not_invalidState (d : Option String) (st : XhrSettings) (x : XHR) :
    ∀ y : XHR, sendAfterGuards d st x ≠ .error (.invalidState, y) := by
  intro y
  unfold sendAfterGuards
  cases urlProtocol st.url with
  | none =>
      obtain ⟨z, hz⟩ := sendHttp_isOk false (some "localhost") d st x
      simp [hz]
  | some p =>
      by_cases h1 : p == "https:"
      · obtain ⟨z, hz⟩ := sendHttp_isOk true (urlHostname st.url) d st x
        simp [h1, hz]
      · by_cases h2 : p == "http:"
        · obtain ⟨z, hz⟩ := sendHttp_isOk false (urlHostname st.url) d st x
          simp [h1, h2, hz]
        · by_cases h3 : p == "file:"
          · simp only [h1, h2, h3, Bool.false_eq_true, if_false, if_true]
            unfold sendFile
            split <;> simp
          · simp [h1, h2, h3]

/-- C9 (confirmed).  `send()` throws an InvalidState error — carrying
the state unchanged, so no transport activity was initiated — exactly
when no Settings exist (open was never called), the ready state is not
`OPENED`, or a send is already in flight; in every other situation the
call does not throw InvalidState (its only other throws are the
unsupported-protocol and file-method errors, which are distinct). -/
theorem c9_send_invalid_state_iff (x : XHR) (d : Option String) :
    sendM d x = .error (.invalidState, x) ↔
      (x.settings = none ∨ x.readyState ≠ OPENED ∨ x.sendFlag = true) := by
  unfold sendM
  cases hs : x.settings with
  | none => simp
  | some st =>
      by_cases h1 : x.readyState = OPENED
      · by_cases h2 : x.sendFlag
        · simp [h1, h2]
        · simp only [h1, h2, hs, ne_eq, not_true_eq_false, if_false,
            Bool.false_eq_true, reduceCtorEq, false_or, or_false, iff_false]
          exact sendAfterGuards_not_invalidState d st x x
      · simp [h1]

/-- `setState` only touches `readyState` and the event trace: the
Settings survive. -/
theorem setStateM_settings (s : Nat) (y : XHR) : (setStateM s y).settings = y.settings := by
  simp only [setStateM, dispatchEvt]
  repeat' split
  all_goals rfl

/-- `setState` keeps the send flag. -/
theorem setStateM_sendFlag (s : Nat) (y : XHR) : (setStateM s y).sendFlag = y.sendFlag := by
  simp only [setStateM, dispatchEvt]
  repeat' split
  all_goals rfl

/-- `setState` keeps the request handle. -/
theorem setStateM_request (s : Nat) (y : XHR) : (setStateM s y).request = y.request := by
  simp only [setStateM, dispatchEvt]
  repeat' split
  all_goals rfl

/-- `setState` keeps the status. -/
theorem setStateM_status (s : Nat) (y : XHR) : (setStateM s y).status = y.status := by
  simp only [setStateM, dispatchEvt]
  repeat' split
  all_goals rfl

/-- `setState` keeps the body text. -/
theorem setStateM_responseText (s : Nat) (y : XHR) :
    (setStateM s y).responseText = y.responseText := by
  simp only [setStateM, dispatchEvt]
  repeat' split
  all_goals rfl

/-- `setState(DONE)` always lands on `DONE` (it stores the state when it
changed, and keeps it when it already was `DONE`). -/
theorem setStateM_DONE_readyState (y : XHR) : (setStateM DONE y).readyState = DONE := by
  simp only [setStateM, dispatchEvt]
  by_cases h : DONE = LOADING ∨ y.readyState ≠ DONE
  · simp only [h, if_true]
    repeat' split
    all_goals rfl
  · simp only [h, if_false]
    push_neg at h
    exact h.2

/-- `abort` always ends in `UNSENT` (before dispatching `abort`). -/
theorem abortM_readyState (x : XHR) : (abortM x).readyState = UNSENT := rfl

/-- `abort` does not touch the Settings. -/
theorem abortM_settings (x : XHR) : (abortM x).settings = x.settings := by
  simp only [abortM, dispatchEvt]
  split
  · exact setStateM_settings _ _
  · rfl

/-- `abort` releases the request handle. -/
theorem abortM_request (x : XHR) : (abortM x).request = none := by
  simp only [abortM, dispatchEvt]
  split
  · exact setStateM_request _ _
  · rfl

/-- `abort` resets the status to 0. -/
theorem abortM_status (x : XHR) : (abortM x).status = 0 := by
  simp only [abortM, dispatchEvt]
  split
  · exact setStateM_status _ _
  · rfl

/-- `abort` clears the body text. -/
theorem abortM_responseText (x : XHR) : (abortM x).responseText = "" := by
  simp only [abortM, dispatchEvt]
  split
  · exact setStateM_responseText _ _
  · rfl

/-- `abort` ends by dispatching the abort event. -/
theorem abortM_last_event (x : XHR) : (abortM x).events.getLast? = some "abort" := by
  simp only [abortM, dispatchEvt]
  exact List.getLast?_concat _

/-- C10 (confirmed).  `open()` with a forbidden method (TRACE, TRACK,
CONNECT) throws the SecurityError only after the unconditional abort
step already ran: the error carries the state `abort()` produced with
the error flag then cleared — the request handle is released,
status/body are reset, the `abort` event was dispatched last, the
object sits in `UNSENT` with the error flag false, and the Settings of
the previous `open()` are still in place (the new method/URL were never
stored). -/
theorem c10_forbidden_method_open (x : XHR) (m u : String) (a : Bool)
    (us pw : Option String) (hm : isAllowedHttpMethod m = false) :
    openM m u a us pw x = .error (.security, { abortM x with errorFlag := false })
    ∧ ({ abortM x with errorFlag := false } : XHR).readyState = UNSENT
    ∧ ({ abortM x with errorFlag := false } : XHR).errorFlag = false
    ∧ ({ abortM x with errorFlag := false } : XHR).settings = x.settings
    ∧ ({ abortM x with errorFlag := false } : XHR).request = none
    ∧ ({ abortM x with errorFlag := false } : XHR).status = 0
    ∧ ({ abortM x with errorFlag := false } : XHR).responseText = ""
    ∧ ({ abortM x with errorFlag := false } : XHR).events.getLast? = some "abort" := by
  refine ⟨?_, ?_, rfl, ?_, ?_, ?_, ?_, ?_⟩
  · unfold openM
    simp [hm]
  · show (abortM x).readyState = UNSENT
    exact abortM_readyState x
  · show (abortM x).settings = x.settings
    exact abortM_settings x
  · show (abortM x).request = none
    exact abortM_request x
  · show (abortM x).status = 0
    exact abortM_status x
  · show (abortM x).responseText = ""
    exact abortM_responseText x
  · show (abortM x).events.getLast? = some "abort"
    exact abortM_last_event x

/-- C10 witness: `open('TRACE', ...)` on an object already carrying the
Settings of a successful `open()`. -/
theorem c10_forbidden_method_open_witness :
    openM "TRACE" "http://example.com/x" true none none xhrSent
        = .error (.security, { abortM xhrSent with errorFlag := false })
    ∧ ({ abortM xhrSent with errorFlag := false } : XHR).readyState = UNSENT
    ∧ ({ abortM xhrSent with errorFlag := false } : XHR).errorFlag = false
    ∧ ({ abortM xhrSent with errorFlag := false } : XHR).settings = xhrSent.settings
    ∧ ({ abortM xhrSent with errorFlag := false } : XHR).request = none
    ∧ ({ abortM xhrSent with errorFlag := false } : XHR).status = 0
    ∧ ({ abortM xhrSent with errorFlag := false } : XHR).responseText = ""
    ∧ ({ abortM xhrSent with errorFlag := false } : XHR).events.getLast? = some "abort" :=
  c10_forbidden_method_open xhrSent "TRACE" "http://example.com/x" true none none (by decide)

/-- the last element of a list, or the default when empty. -/
def lastOr : String → List String → String
  | d, [] => d
  | _, a :: rest => lastOr a rest

/-- a redirect hop rewrites only the Settings URL (to the Location
target) and the response/request fields. -/
theorem followStep_settings (x : XHR) (r : RespScript) (st : XhrSettings)
    (hst : x.settings = some st) :
    (followStep x r).settings = some { st with url := (respLocation r).getD "" } := by
  simp [followStep, hst]

/-- a redirect hop keeps the ready state. -/
theorem followStep_readyState (x : XHR) (r : RespScript) :
    (followStep x r).readyState = x.readyState := by
  unfold followStep
  cases h : x.settings <;> simp [h]

/-- a redirect hop keeps the send flag. -/
theorem followStep_sendFlag (x : XHR) (r : RespScript) :
    (followStep x r).sendFlag = x.sendFlag := by
  unfold followStep
  cases h : x.settings <;> simp [h]

/-- a chain of redirect hops keeps the ready state. -/
theorem foldl_followStep_readyState (rs : List RespScript) :
    ∀ x : XHR, (rs.foldl followStep x).readyState = x.readyState := by
  induction rs with
  | nil => intro x; rfl
  | cons r rs' ih =>
      intro x
      rw [List.foldl_cons, ih, followStep_readyState]

/-- a chain of redirect hops keeps the send flag. -/
theorem foldl_followStep_sendFlag (rs : List RespScript) :
    ∀ x : XHR, (rs.foldl followStep x).sendFlag = x.sendFlag := by
  induction rs with
  | nil => intro x; rfl
  | cons r rs' ih =>
      intro x
      rw [List.foldl_cons, ih, followStep_sendFlag]

/-- a chain of redirect hops rewrites the Settings URL to the last
Location target (the method, user and password are untouched). -/
theorem foldl_followStep_settings (rs : List RespScript) :
    ∀ (x : XHR) (st : XhrSettings), x.settings = some st →
      (rs.foldl followStep x).settings
        = some { st with url := lastOr st.url (rs.map (fun r => (respLocation r).getD "")) } := by
  induction rs with
  | nil => intro x st hst; exact hst
  | cons r rs' ih =>
      intro x st hst
      rw [List.foldl_cons]
      exact ih (followStep x r) { st with url := (respLocation r).getD "" }
        (followStep_settings x r st hst)

/-- the headers-arrival step keeps the send flag. -/
theorem respHeadersStep_sendFlag (r : RespScript) (x : XHR) :
    (respHeadersStep r x).sendFlag = x.sendFlag := by
  show (setStateM HEADERS_RECEIVED { x with response := some r }).sendFlag = x.sendFlag
  rw [setStateM_sendFlag]

/-- a data chunk keeps the send flag. -/
theorem respDataStep_sendFlag (c : String) (x : XHR) :
    (respDataStep c x).sendFlag = x.sendFlag := by
  simp only [respDataStep]
  repeat' split
  all_goals simp [setStateM_sendFlag]

/-- streaming chunks keeps the send flag. -/
theorem foldl_respDataStep_sendFlag (cs : List String) :
    ∀ x : XHR, (cs.foldl (fun y c => respDataStep c y) x).sendFlag = x.sendFlag := by
  induction cs with
  | nil => intro x; rfl
  | cons c cs' ih =>
      intro x
      rw [List.foldl_cons, ih, respDataStep_sendFlag]

/-- with the send flag still set, processing a final response always
lands on `DONE` (the end event forces it). -/
theorem finishResp_readyState (r : RespScript) (x : XHR) (hsf : x.sendFlag = true) :
    (finishResp r x).readyState = DONE := by
  unfold finishResp respEndStep
  have hsend : (r.chunks.foldl (fun y c => respDataStep c y) (respHeadersStep r x)).sendFlag
      = true := by
    rw [foldl_respDataStep_sendFlag, respHeadersStep_sendFlag, hsf]
  rw [if_pos hsend]
  show (setStateM DONE _).readyState = DONE
  exact setStateM_DONE_readyState _

/-- while fewer than ten redirects have been counted, the response
handler consumes a block of redirect responses by following each one:
the state folds through `followStep`, the counter advances, and each
re-issued request is recorded with the method downgraded to GET exactly
for a 303 hop. -/
theorem processResponses_redirect_block (rs : List RespScript) :
    ∀ (rest : List RespScript) (c : Nat) (x : XHR) (issued : List (String × String))
      (st : XhrSettings),
    (∀ r ∈ rs, isRedirectResp r = true) → x.settings = some st → c + rs.length ≤ 9 →
    processResponses x c issued (rs ++ rest)
      = processResponses (rs.foldl followStep x) (c + rs.length)
          (issued ++ rs.map (fun r =>
            (if r.statusCode == 303 then "GET" else st.method, (respLocation r).getD "")))
          rest := by
  induction rs with
  | nil => intro rest c x issued st _ _ _; simp
  | cons r rs' ih =>
      intro rest c x issued st hred hst hc
      have hred_r : isRedirectResp r = true := hred r (List.mem_cons_self r rs')
      have hcount : ¬ (10 ≤ c + 1) := by
        simp only [List.length_cons] at hc
        omega
      show processResponses x c issued (r :: (rs' ++ rest)) = _
      rw [show processResponses x c issued (r :: (rs' ++ rest))
          = processResponses (followStep x r) (c + 1)
              (issued ++ [(if r.statusCode == 303 then "GET" else st.method,
                           (respLocation r).getD "")])
              (rs' ++ rest) from by
        simp only [processResponses, hst, hred_r, if_true, hcount, if_false]]
      rw [ih rest (c + 1) (followStep x r)
        (issued ++ [(if r.statusCode == 303 then "GET" else st.method,
                     (respLocation r).getD "")])
        { st with url := (respLocation r).getD "" }
        (fun r' hr' => hred r' (List.mem_cons_of_mem r hr'))
        (followStep_settings x r st hst)
        (by simp only [List.length_cons] at hc; omega)]
      have harith : c + 1 + rs'.length = c + (r :: rs').length := by
        simp only [List.length_cons]
        omega
      rw [harith, List.foldl_cons, List.map_cons, List.append_assoc]
      rfl

/-- a single non-redirect response is streamed to completion. -/
theorem processResponses_final (x : XHR) (c : Nat) (issued : List (String × String))
    (final : RespScript) (st : XhrSettings) (hst : x.settings = some st)
    (hfin : isRedirectResp final = false) :
    processResponses x c issued [final]
      = .ok (finishResp final { x with response := some final }, issued) := by
  simp only [processResponses, hst, hfin, Bool.false_eq_true, if_false]

/-- C1 (amended).  For an async request whose transport delivers a chain
of redirect responses (status in {301, 302, 303, 307} with a truthy
Location header) followed by a final non-redirect response: a chain of
at most NINE hops completes successfully — the object reaches `DONE`,
the Settings URL resolves to the last Location target, and each
re-issued request uses the original method except that a 303 hop
downgrades that hop's request to GET — while a chain of TEN hops
raises the redirect-loop error while the ready state is still
`OPENED`, before `DONE` is ever reached.  (The claim's counts of 10
and 11 are off by one: `redirectCount++` precedes the `>= 10` test.) -/
theorem c1_redirect_chain_amended (rs : List RespScript) (final : RespScript)
    (x : XHR) (st : XhrSettings)
    (hred : ∀ r ∈ rs, isRedirectResp r = true)
    (hfin : isRedirectResp final = false)
    (hst : x.settings = some st)
    (hrs : x.readyState = OPENED)
    (hsf : x.sendFlag = true) :
    (rs.length ≤ 9 →
      processResponses x 0 [] (rs ++ [final])
        = .ok (finishResp final { rs.foldl followStep x with response := some final },
               rs.map (fun r => (if r.statusCode == 303 then "GET" else st.method,
                                 (respLocation r).getD "")))
      ∧ (finishResp final { rs.foldl followStep x with response := some final }).readyState
          = DONE
      ∧ (rs.foldl followStep x).settings
          = some { st with
              url := lastOr st.url (rs.map (fun r => (respLocation r).getD "")) })
    ∧ (rs.length = 10 →
      ∃ y, processResponses x 0 [] (rs ++ [final]) = .error (.redirectLoop, y)
        ∧ y.readyState = OPENED) := by
  constructor
  · intro h9
    have hsets := foldl_followStep_settings rs x st hst
    refine ⟨?_, ?_, hsets⟩
    · rw [processResponses_redirect_block rs [final] 0 x [] st hred hst (by omega),
        processResponses_final (rs.foldl followStep x) (0 + rs.length) _ final _ hsets hfin,
        List.nil_append]
    · apply finishResp_readyState
      show (rs.foldl followStep x).sendFlag = true
      rw [foldl_followStep_sendFlag, hsf]
  · intro h10
    have hdrop_len : (rs.drop 9).length = 1 := by
      rw [List.length_drop]
      omega
    obtain ⟨r10, hdrop⟩ := List.length_eq_one.mp hdrop_len
    have htake_len : (rs.take 9).length = 9 := by
      rw [List.length_take]
      omega
    have htake_red : ∀ r ∈ rs.take 9, isRedirectResp r = true :=
      fun r hr => hred r (List.take_subset 9 rs hr)
    have hr10 : isRedirectResp r10 = true := by
      refine hred r10 (List.drop_subset 9 rs ?_)
      rw [hdrop]
      exact List.mem_singleton_self r10
    have hsplit : rs ++ [final] = rs.take 9 ++ (r10 :: [final]) := by
      conv_lhs => rw [← List.take_append_drop 9 rs]
      rw [hdrop, List.append_assoc]
      rfl
    have hsets := foldl_followStep_settings (rs.take 9) x st hst
    rw [hsplit, processResponses_redirect_block (rs.take 9) (r10 :: [final]) 0 x [] st
      htake_red hst (by omega)]
    refine ⟨{ (rs.take 9).foldl followStep x with response := some r10 }, ?_, ?_⟩
    · simp only [processResponses, hsets, hr10, if_true, htake_len, Nat.zero_add]
      rw [if_pos (by omega)]
    · show ((rs.take 9).foldl followStep x).readyState = OPENED
      rw [foldl_followStep_readyState, hrs]

/-- an object on which `open('POST', ...)` and `send()` have run. -/
def xhrPosted : XHR :=
  okOr (sendM none (okOr (openM "POST" "http://example.com/p" true none none initialXHR)))

/-- the Settings `xhrPosted` carries. -/
def stPosted : XhrSettings :=
  { method := "POST", url := "http://example.com/p", async := true,
    user := none, password := none }

/-- C1 amended witness: a three-hop chain on a POST request completes in
`DONE`, a ten-hop chain raises the redirect-loop error in `OPENED`. -/
theorem c1_redirect_chain_amended_witness :
    (processResponses xhrPosted 0 [] (redirectChain 3 ++ [finalResp])
        = .ok (finishResp finalResp
            { (redirectChain 3).foldl followStep xhrPosted with response := some finalResp },
          (redirectChain 3).map (fun r => (if r.statusCode == 303 then "GET" else stPosted.method,
            (respLocation r).getD "")))
      ∧ (finishResp finalResp
          { (redirectChain 3).foldl followStep xhrPosted with
              response := some finalResp }).readyState = DONE)
    ∧ (∃ y, processResponses xhrPosted 0 [] (redirectChain 10 ++ [finalResp])
        = .error (.redirectLoop, y) ∧ y.readyState = OPENED) := by
  have h3 := c1_redirect_chain_amended (redirectChain 3) finalResp xhrPosted stPosted
    (by decide) (by decide) (by decide) (by decide) (by decide)
  have h10 := c1_redirect_chain_amended (redirectChain 10) finalResp xhrPosted stPosted
    (by decide) (by decide) (by decide) (by decide) (by decide)
  obtain ⟨he, hd, _⟩ := h3.1 (by decide)
  exact ⟨⟨he, hd⟩, h10.2 (by decide)⟩

/-- C9 witness: `send()` before any `open()` throws InvalidState with
the state untouched. -/
theorem c9_send_invalid_state_iff_witness :
    sendM none initialXHR = .error (.invalidState, initialXHR) :=
  (c9_send_invalid_state_iff initialXHR none).mpr (Or.inl rfl)
